import Mathlib

/-!
Shallow embedding of the embedded key/value storage engine of
YuriyLisovskiy/blockchain-go (package `db`) together with the parts of the
database facade the claims refer to.  Pure data (meta records, page headers,
the freelist) is translated into Lean structures; the stateful methods of
`DB` and `Transaction` become explicit state-passing functions.  Machine
integers (`uint32`, `uint64`) are modelled as `Nat`; the arithmetic the code
performs on them (`txnid % 2`, `minid - 1`, `count - 1` for `count ≥ 1`)
never overflows in the source's domain, so no explicit `% 2^w` is needed
except where noted.  Go's byte-reinterpretation of page bodies
(`p.meta()`, `p.freelist()`, the bucket catalog) is modelled by a typed
`PageBody` carried inside the page.

Functions whose bodies are not part of the repository snapshot (only their
call sites are) — `freelist.allocate`, `freelist.release`, `freelist.read`,
`sys.read`, `sys.get`, `Cursor.Get` — are modelled from the spec and say so
in their doc comments.
-/

namespace BlockchainDb

/-- Source `const magic uint32 = 0xDEADC0DE` (src/core/utxo.go, package db part). -/
def magic : Nat := 0xDEADC0DE

/-- Source `const version = 1` (src/db/const.go). -/
def version : Nat := 1

/-- Source `const minPageSize = 0x1000`. -/
def minPageSize : Nat := 0x1000

/-- Page flag `p_branch = 0x01`. -/
def p_branch : Nat := 0x01

/-- Page flag `p_leaf = 0x02`. -/
def p_leaf : Nat := 0x02

/-- Page flag `p_meta = 0x04`. -/
def p_meta : Nat := 0x04

/-- Page flag `p_sys = 0x08` (the bucket-catalog flag; the newer naming in
`DB.init` calls it `p_buckets`, a drift the spec's design notes record). -/
def p_sys : Nat := 0x08

/-- Page flag `p_freelist = 0x10`. -/
def p_freelist : Nat := 0x10

/-- The `meta` struct of package db: magic, version, pageSize, the
next-unallocated page id `pgid`, the freelist page id `free`, the
bucket-catalog page id `sys`, and the committed transaction id `txnid`.
(`DB.init` refers to `free`/`sys` by their newer names
`freelist`/`buckets`; the fields are the same.) -/
structure Meta where
  magic : Nat
  version : Nat
  pageSize : Nat
  pgid : Nat
  free : Nat
  sys : Nat
  txnid : Nat
deriving Repr, DecidableEq, Inhabited

/-- A bucket descriptor held in the bucket catalog: the root page id of the
bucket's B+tree. -/
structure BucketDesc where
  root : Nat
deriving Repr, DecidableEq, Inhabited

/-- The typed contents of a page body.  In Go the body is raw bytes that
`p.meta()`, `p.freelist()` and the catalog reader reinterpret; the typed sum
models those reinterpretations. -/
inductive PageBody where
  | metaBody (m : Meta)
  | freelistBody (ids : List Nat)
  | bucketsBody (entries : List (String × BucketDesc))
  | leafBody (entries : List (List Nat × List Nat))
  | empty
deriving Repr, DecidableEq, Inhabited

/-- The `page` header of package db (id, flags, count, overflow) together
with the typed body that in Go follows at `ptr`. -/
structure Page where
  id : Nat
  flags : Nat
  count : Nat
  overflow : Nat
  body : PageBody
deriving Repr, DecidableEq, Inhabited

/-- Source `func (p *page) meta() *meta` — reinterpret the page body as a meta
record.  A non-meta body yields the zero meta, as reading zeroed bytes
would. -/
def Page.meta (p : Page) : Meta :=
  match p.body with
  | .metaBody m => m
  | _ => default

/-- Errors of package db that the embedded operations can surface.
`wrapped` models `&Error{msg, err}` (with `none` for a nil inner error). -/
inductive DbError where
  | invalidErr
  | versionMismatchErr
  | databaseNotOpenErr
  | databaseAlreadyOpenedErr
  | fsyncErr (code : Nat)
  | wrapped (msg : String) (inner : Option DbError)
deriving Repr, Inhabited

/-- Source `func (m *meta) validate() error` — magic then version check. -/
def Meta.validate (m : Meta) : Except DbError Unit :=
  if m.magic ≠ BlockchainDb.magic then .error .invalidErr
  else if m.version ≠ BlockchainDb.version then .error .versionMismatchErr
  else .ok ()

/-- Source `func (m *meta) copy(dest *meta)` — field-by-field copy onto `dest`. -/
def Meta.copy (m : Meta) (dest : Meta) : Meta :=
  { dest with
    magic := m.magic
    version := m.version
    pageSize := m.pageSize
    pgid := m.pgid
    free := m.free
    txnid := m.txnid
    sys := m.sys }

/-- Source `func (m *meta) write(p *page)` — the page id becomes `txnid % 2`, the
meta flag is or-ed into the page flags, and the meta is copied onto the
page's meta area. -/
def Meta.write (m : Meta) (p : Page) : Page :=
  let p1 : Page := { p with id := m.txnid % 2, flags := p.flags ||| p_meta }
  { p1 with body := .metaBody (m.copy p1.meta) }

/-- The in-memory freelist: the free page ids plus the map from txnid to the
page ids pending release behind that transaction.  The Go map
`pending map[txnid][]pgid` is modelled as an association list. -/
structure Freelist where
  ids : List Nat
  pending : List (Nat × List Nat)
deriving Repr, DecidableEq, Inhabited

/-- Helper for `Freelist.allocate`: scan the (sorted) free set for the first
suffix that starts with the contiguous run `x, x+1, …, x+n-1`, returning the
run's first id. -/
def findRun (n : Nat) : List Nat → Option Nat
  | [] => none
  | x :: rest =>
    if (x :: rest).take n = List.range' x n then some x else findRun n rest

/-- Helper for `Freelist.allocate`: remove the ids of the run
`[start, start+n)` from the free set. -/
def removeRun (ids : List Nat) (start n : Nat) : List Nat :=
  ids.filter (fun i => i < start || start + n ≤ i)

/-- Modelled from the spec: `freelist.allocate(n)` (body not in the
snapshot, only its call in `DB.allocate`) "finds the lowest-id contiguous
run of length `n` in the free set, removes it, returns its first id;
returns 0 if none."  The free set is kept sorted by id. -/
def Freelist.allocate (f : Freelist) (n : Nat) : Nat × Freelist :=
  match findRun n f.ids with
  | some s => (s, { f with ids := removeRun f.ids s n })
  | none => (0, f)

/-- Modelled from the spec: `freelist.release(minid)` (body not in the
snapshot, only its call in `DB.RWTransaction`) "moves every pending entry
with key ≤ `minid` into the free set". -/
def Freelist.release (f : Freelist) (minid : Nat) : Freelist :=
  { ids := f.ids ++
      (f.pending.filter (fun e => e.1 ≤ minid)).foldr (fun e acc => e.2 ++ acc) []
    pending := f.pending.filter (fun e => minid < e.1) }

/-- Modelled from the spec: `freelist.read(page)` (body not in the snapshot,
only its call in `DB.Open`) deserializes the free set from a freelist page;
the pending map starts empty, as `DB.Open` builds the freelist with
`&freelist{pending: make(map[txnid][]pgid)}`. -/
def freelistRead (p : Page) : Freelist :=
  { ids := match p.body with | .freelistBody ids => ids | _ => []
    pending := [] }

/-- The fields of the `DB` struct the embedded operations depend on.  The
mmapped data region is the page map `data`; `meta0`/`meta1` are the two meta
page references; `transactions` holds the ids of the open read-only
transactions (Go keeps the transaction objects and asks each for `t.id()`);
the OS/file handles are not represented — file contents appear as explicit
arguments where an operation reads them. -/
structure DB where
  data : Nat → Page
  meta0 : Meta
  meta1 : Meta
  pageSize : Nat
  opened : Bool
  transactions : List Nat
  freelist : Freelist

/-- Source `func (db *DB) page(id pgid) *page` — resolve a page id in the mmap. -/
def DB.page (db : DB) (id : Nat) : Page := db.data id

/-- Source `func (db *DB) meta() *meta` — the current meta is `meta0` when its
txnid is greater than `meta1`'s, otherwise `meta1`. -/
def DB.meta (db : DB) : Meta :=
  if db.meta0.txnid > db.meta1.txnid then db.meta0 else db.meta1

/-- Modelled from the spec: `sys.read(page)` (body not in the snapshot, only
its call in `Transaction.init`) deserializes the bucket catalog page into
the name → bucket-descriptor mapping. -/
def sysRead (p : Page) : List (String × BucketDesc) :=
  match p.body with
  | .bucketsBody entries => entries
  | _ => []

/-- Modelled from the spec: `sys.get(name)` (body not in the snapshot, only
its call in `Transaction.Bucket`) looks the name up in the catalog and
returns nil when the bucket does not exist. -/
def sysGet (s : List (String × BucketDesc)) (name : String) : Option BucketDesc :=
  s.lookup name

/-- The `Transaction` struct: its id field, the database it belongs to, the
meta captured at begin, the bucket catalog read at begin, and the dirty-page
map (`nil` for read-only transactions, a map for writers). -/
structure Transaction where
  id : Nat
  db : DB
  meta : Meta
  sys : List (String × BucketDesc)
  pages : Option (List (Nat × Page))

/-- Source `func (t *Transaction) page(id pgid) *page` — the dirty page when the
map is non-nil and holds the id, otherwise the page from the mmap. -/
def Transaction.page (t : Transaction) (id : Nat) : Page :=
  match t.pages with
  | some m =>
    match m.lookup id with
    | some p => p
    | none => t.db.page id
  | none => t.db.page id

/-- Source `func (t *Transaction) init(db *DB)` — capture `db.meta()`, clear the
dirty-page map, and read the bucket catalog from the page the captured meta
names (through `t.page`, which with a nil dirty map is `db.page`). -/
def Transaction.init (db : DB) : Transaction :=
  let m := db.meta
  { id := 0, db := db, meta := m, pages := none, sys := sysRead (db.page m.sys) }

/-- Source `func (t *Transaction) Close()` — the body is only a `TODO` comment; it
mutates neither the transaction nor the database, so the database state
after the call is the state before it. -/
def Transaction.close (_t : Transaction) (db : DB) : DB := db

/-- Source `func (db *DB) removeTransaction(t *Transaction)` — remove the first
matching transaction from `db.transactions`. -/
def DB.removeTransaction (db : DB) (t : Nat) : DB :=
  { db with transactions := db.transactions.erase t }

/-- Source `func (db *DB) Transaction() (*Transaction, error)` — fail when the
database is not open, otherwise create a read-only transaction with
`t.init(db)` and append it to the open-transaction list. -/
def DB.beginTx (db : DB) : Except DbError (Transaction × DB) :=
  if db.opened = false then .error .databaseNotOpenErr
  else
    let t := Transaction.init db
    .ok (t, { db with transactions := db.transactions ++ [t.meta.txnid] })

/-- The data file as the pager sees it: its size in bytes and the page
found at each page-sized offset (offset 0 is page 0, …). -/
structure DataFile where
  size : Nat
  pageAt : Nat → Page

/-- Source `func (db *DB) mmap() error` — fail when the file is smaller than two
pages, otherwise map it, take the meta references from pages 0 and 1, and
validate first `meta0` and then `meta1`, failing on the first validation
error. -/
def DB.mmapFile (f : DataFile) (pageSize : Nat) : Except DbError (Meta × Meta) :=
  if f.size < pageSize * 2 then .error (.wrapped "file size too small" none)
  else
    let meta0 := (f.pageAt 0).meta
    let meta1 := (f.pageAt 1).meta
    match meta0.validate with
    | .error e => .error (.wrapped "meta0 error" (some e))
    | .ok _ =>
      match meta1.validate with
      | .error e => .error (.wrapped "meta1 error" (some e))
      | .ok _ => .ok (meta0, meta1)

/-- The existing-file branch of `func (db *DB) Open(path, mode) error`:
read the first `minPageSize` bytes, validate the meta found there to
discover the page size, then `mmap` (which validates both meta pages), read
the freelist from the page the current meta names, and mark the database
opened.  File-handle errors are outside the model: the file is given as its
contents. -/
def DB.openExisting (db : DB) (f : DataFile) : Except DbError DB :=
  if db.opened then .error .databaseAlreadyOpenedErr
  else
    let m := (f.pageAt 0).meta
    match m.validate with
    | .error e => .error (.wrapped "meta error" (some e))
    | .ok _ =>
      let pageSize := m.pageSize
      match DB.mmapFile f pageSize with
      | .error e => .error e
      | .ok (m0, m1) =>
        let db1 : DB :=
          { db with data := f.pageAt, meta0 := m0, meta1 := m1
                    pageSize := pageSize }
        let fl := freelistRead (db1.page db1.meta.free)
        .ok { db1 with freelist := fl, opened := true }

/-- Source `func (db *DB) init() error` — the four pages the new-file branch of
`Open` writes at offset 0: two meta pages with txnids 0 and 1 (magic,
version, the OS page size, freelist page 2, bucket-catalog page 3,
next-unallocated page 4), an empty freelist page at id 2 and an empty
bucket-catalog page at id 3.  The buffer goes to `db.metafile`, the
descriptor opened with `O_SYNC`, so the write itself is synchronous. -/
def DB.init (osPageSize : Nat) : List Page :=
  let metaPage (i : Nat) : Page :=
    { id := i, flags := p_meta, count := 0, overflow := 0
      body := .metaBody
        { magic := BlockchainDb.magic, version := BlockchainDb.version
          pageSize := osPageSize, free := 2, sys := 3, pgid := 4, txnid := i } }
  [ metaPage 0, metaPage 1
  , { id := 2, flags := p_freelist, count := 0, overflow := 0
      body := .freelistBody [] }
  , { id := 3, flags := p_sys, count := 0, overflow := 0
      body := .bucketsBody [] } ]

/-- Source `func (db *DB) sync(force bool) error` — as written, the function
returns `DatabaseAlreadyOpenedError` whenever `db.opened` holds and only
otherwise reaches `syscall.Fsync(db.file.Fd())`; the outcome of that
system call is passed in as `fsyncResult`. -/
def DB.sync (db : DB) (_force : Bool) (fsyncResult : Except DbError Unit) :
    Except DbError Unit :=
  if db.opened then .error .databaseAlreadyOpenedErr
  else
    match fsyncResult with
    | .error e => .error e
    | .ok _ => .ok ()

/-- Source `var minid txnid = 0xFFFFFFFFFFFFFFFF` — the sentinel the reader-id
minimum starts from in `DB.RWTransaction`. -/
def sentinelTxnid : Nat := 0xFFFFFFFFFFFFFFFF

/-- The reader-minimum loop of `func (db *DB) RWTransaction()`:
`minid` starts at the sentinel and each open reader's id lowers it. -/
def rwMinReaderTxnid (readers : List Nat) : Nat :=
  readers.foldl (fun minid t => if t < minid then t else minid) sentinelTxnid

/-- The freelist-release step of `DB.RWTransaction`: when the computed
minimum is positive, `freelist.release(minid - 1)` runs; `none` records
that no release call happens. -/
def rwBeginRelease (readers : List Nat) (fl : Freelist) : Option Freelist :=
  let minid := rwMinReaderTxnid readers
  if minid > 0 then some (fl.release (minid - 1)) else none

/-- Source `func (db *DB) allocate(count int) *page` — the result: the returned
page header, the length of the backing buffer, and the freelist and
writer-meta `pgid` after the call. -/
structure AllocOut where
  p : Page
  bufLen : Nat
  fl : Freelist
  metaPgid : Nat
deriving Repr, DecidableEq, Inhabited

/-- Source `func (db *DB) allocate(count int) *page` — allocate a zeroed buffer of
`count*pageSize` bytes, set `overflow = count-1`, take the page id from
`freelist.allocate(count)` when it returns a nonzero id, and otherwise use
the writer meta's next-unallocated `pgid`, advancing it by `count`.  The
buffer is in memory only; nothing is written to the file. -/
def DB.allocate (pageSize : Nat) (fl : Freelist) (metaPgid : Nat)
    (count : Nat) : AllocOut :=
  let bufLen := count * pageSize
  let base : Page :=
    { id := 0, flags := 0, count := 0, overflow := count - 1, body := .empty }
  let res := fl.allocate count
  if res.1 ≠ 0 then
    { p := { base with id := res.1 }, bufLen := bufLen, fl := res.2
      metaPgid := metaPgid }
  else
    { p := { base with id := metaPgid }, bufLen := bufLen, fl := res.2
      metaPgid := metaPgid + count }

/-- The `Bucket` handle `Transaction.Bucket` returns: the descriptor from
the catalog and the bucket's name.  (The Go struct also carries the back
pointer to the transaction; the functions below pass the transaction
explicitly instead.) -/
structure Bucket where
  bucket : BucketDesc
  name : String
deriving Repr, DecidableEq, Inhabited

/-- Source `func (t *Transaction) Bucket(name string) *Bucket` — nil when the
catalog has no bucket of that name, otherwise the handle. -/
def Transaction.bucketByName (t : Transaction) (name : String) : Option Bucket :=
  match sysGet t.sys name with
  | none => none
  | some b => some { bucket := b, name := name }

/-- Modelled from the spec: `Cursor.Get(key)` (body not in the snapshot,
only its call in `Transaction.Get`) seeks the smallest entry ≥ key and
verifies equality; here the bucket's entries are read from its root page
(a leaf page in the modelled states), so `get` is the exact-match lookup
among that page's entries. -/
def cursorGet (t : Transaction) (b : Bucket) (key : List Nat) :
    Option (List Nat) :=
  match (t.page b.bucket.root).body with
  | .leafBody entries => entries.lookup key
  | _ => none

/-- Source `func (t *Transaction) Cursor(name string) *Cursor` — nil when the
bucket does not exist, otherwise a cursor on the bucket. -/
def Transaction.cursor (t : Transaction) (name : String) : Option Bucket :=
  match t.bucketByName name with
  | none => none
  | some b => some b

/-- Source `func (t *Transaction) Get(name string, key []byte) []byte` — nil when
the cursor is nil (no such bucket), otherwise `c.Get(key)`. -/
def Transaction.get (t : Transaction) (name : String) (key : List Nat) :
    Option (List Nat) :=
  match t.cursor name with
  | none => none
  | some c => cursorGet t c key

/-- Source `func (db *DB) Get(name string, key []byte) ([]byte, error)` — begin a
read-only transaction (propagating its error), and return `t.Get(name,key)`
with a nil error. -/
def DB.get (db : DB) (name : String) (key : List Nat) :
    Except DbError (Option (List Nat)) :=
  match db.beginTx with
  | .error e => .error e
  | .ok (t, _) => .ok (t.get name key)

/-- Decide whether a database-level call succeeded. -/
def succeeds {α : Type} : Except DbError α → Bool
  | .ok _ => true
  | .error _ => false

/-!  Helper lemmas about the fold that computes the reader minimum and about
the freelist operations. -/

theorem foldlMin_le_init (l : List Nat) (a : Nat) :
    l.foldl (fun m t => if t < m then t else m) a ≤ a := by
  induction l generalizing a with
  | nil => exact Nat.le_refl a
  | cons x xs ih =>
    simp only [List.foldl_cons]
    refine Nat.le_trans (ih _) ?_
    by_cases h : x < a
    · simp [h, Nat.le_of_lt h]
    · simp [h]

theorem foldlMin_le_mem (l : List Nat) (a t : Nat) (ht : t ∈ l) :
    l.foldl (fun m t => if t < m then t else m) a ≤ t := by
  induction l generalizing a with
  | nil => cases ht
  | cons x xs ih =>
    simp only [List.foldl_cons]
    rcases List.mem_cons.mp ht with rfl | hmem
    · refine Nat.le_trans (foldlMin_le_init xs _) ?_
      by_cases h : t < a
      · simp [h]
      · simp [h, Nat.le_of_not_lt h]
    · exact ih _ hmem

theorem foldlMin_mem_or_init (l : List Nat) (a : Nat) :
    l.foldl (fun m t => if t < m then t else m) a = a ∨
    l.foldl (fun m t => if t < m then t else m) a ∈ l := by
  induction l generalizing a with
  | nil => exact Or.inl rfl
  | cons x xs ih =>
    simp only [List.foldl_cons]
    rcases ih (if x < a then x else a) with h | h
    · by_cases hx : x < a
      · right; rw [h, if_pos hx]; exact List.mem_cons_self x xs
      · left; rw [h, if_neg hx]
    · right; exact List.mem_cons_of_mem x h

theorem mem_foldr_append (l : List (Nat × List Nat)) (e : Nat × List Nat)
    (he : e ∈ l) (p : Nat) (hp : p ∈ e.2) :
    p ∈ l.foldr (fun e acc => e.2 ++ acc) [] := by
  induction l with
  | nil => cases he
  | cons x xs ih =>
    simp only [List.foldr_cons, List.mem_append]
    rcases List.mem_cons.mp he with rfl | hmem
    · exact Or.inl hp
    · exact Or.inr (ih hmem)

theorem findRun_mem (n : Nat) (l : List Nat) (s : Nat)
    (h : findRun n l = some s) : ∀ j < n, s + j ∈ l := by
  induction l with
  | nil => cases h
  | cons x rest ih =>
    intro j hj
    by_cases hrun : (x :: rest).take n = List.range' x n
    · have hs : x = s := by
        simpa [findRun, hrun] using h
      subst hs
      have hmem : x + j ∈ List.range' x n :=
        List.mem_range'_1.mpr ⟨Nat.le_add_right x j, Nat.add_lt_add_left hj x⟩
      rw [← hrun] at hmem
      exact List.take_subset n (x :: rest) hmem
    · have h' : findRun n rest = some s := by
        simpa [findRun, hrun] using h
      exact List.mem_cons_of_mem x (ih h' j hj)

/-!  Concrete states used by the witnesses and counterexamples. -/

/-- A valid meta with txnid 8 used as `meta0` of the example database. -/
def exMeta0 : Meta :=
  { magic := BlockchainDb.magic, version := BlockchainDb.version
    pageSize := 4096, pgid := 4, free := 2, sys := 3, txnid := 8 }

/-- A valid meta with txnid 7 used as `meta1` of the example database. -/
def exMeta1 : Meta :=
  { magic := BlockchainDb.magic, version := BlockchainDb.version
    pageSize := 4096, pgid := 4, free := 2, sys := 3, txnid := 7 }

/-- A bucket-catalog page holding one bucket named `widgets`. -/
def exCatalogPage : Page :=
  { id := 3, flags := p_sys, count := 1, overflow := 0
    body := .bucketsBody [("widgets", { root := 6 })] }

/-- An open example database whose current meta is `exMeta0` and whose
catalog page 3 holds the single bucket `widgets`. -/
def exDb : DB :=
  { data := fun i => if i = 3 then exCatalogPage else default
    meta0 := exMeta0, meta1 := exMeta1, pageSize := 4096
    opened := true, transactions := [], freelist := { ids := [], pending := [] } }

/-- A database value that is not yet opened (the zero `DB` of `NewDB`). -/
def exClosedDb : DB :=
  { data := fun _ => default, meta0 := default, meta1 := default
    pageSize := 0, opened := false, transactions := []
    freelist := { ids := [], pending := [] } }

/-- A meta page whose meta fails validation (magic 0). -/
def exPageMetaBad : Page :=
  { id := 0, flags := p_meta, count := 0, overflow := 0
    body := .metaBody
      { magic := 0, version := BlockchainDb.version, pageSize := 4096
        pgid := 4, free := 2, sys := 3, txnid := 0 } }

/-- A meta page at slot 0 whose meta validates (txnid 0). -/
def exPageMetaG0 : Page :=
  { id := 0, flags := p_meta, count := 0, overflow := 0
    body := .metaBody
      { magic := BlockchainDb.magic, version := BlockchainDb.version
        pageSize := 4096, pgid := 4, free := 2, sys := 3, txnid := 0 } }

/-- A meta page at slot 1 whose meta validates (txnid 1). -/
def exPageMetaG1 : Page :=
  { id := 1, flags := p_meta, count := 0, overflow := 0
    body := .metaBody
      { magic := BlockchainDb.magic, version := BlockchainDb.version
        pageSize := 4096, pgid := 4, free := 2, sys := 3, txnid := 1 } }

/-- An empty freelist page at id 2. -/
def exPageFree : Page :=
  { id := 2, flags := p_freelist, count := 0, overflow := 0
    body := .freelistBody [] }

/-- A two-page data file whose first meta page is corrupt and whose second
meta page validates. -/
def exFileBad0 : DataFile :=
  { size := 8192
    pageAt := fun i =>
      if i = 0 then exPageMetaBad else if i = 1 then exPageMetaG1 else default }

/-- A data file on which both meta pages validate. -/
def exFileGood : DataFile :=
  { size := 16384
    pageAt := fun i =>
      if i = 0 then exPageMetaG0
      else if i = 1 then exPageMetaG1
      else if i = 2 then exPageFree
      else default }

/-- C1: for every open database whose meta pages hold txnids t0 and t1,
`DB.meta()` returns `meta0` exactly when t0 > t1 and `meta1` otherwise, and
a transaction roots itself at that meta: the meta `Transaction.init`
captures is `db.meta()`. -/
theorem db_meta_selects_greater_txnid (db : DB) :
    (db.meta0.txnid > db.meta1.txnid → db.meta = db.meta0) ∧
    (¬ db.meta0.txnid > db.meta1.txnid → db.meta = db.meta1) ∧
    (Transaction.init db).meta = db.meta := by
  refine ⟨fun h => ?_, fun h => ?_, rfl⟩
  · simp [DB.meta, h]
  · simp [DB.meta, h]

/-- Witness for C1: on the example database (t0 = 8 > t1 = 7) the current
meta is `meta0`. -/
theorem db_meta_selects_greater_txnid_witness :
    exDb.meta = exDb.meta0 ∧ (Transaction.init exDb).meta = exDb.meta := by
  have h := db_meta_selects_greater_txnid exDb
  exact ⟨h.1 (by decide), h.2.2⟩

/-- C6: after `m.write(p)` the page id is `m.txnid mod 2`, the meta flag
bit (bit 2, value `p_meta = 4`) is set, and reading the meta back from the
page yields each of m's seven fields unchanged. -/
theorem meta_write_round_trip (m : Meta) (p : Page) :
    (m.write p).id = m.txnid % 2 ∧
    ((m.write p).flags).testBit 2 = true ∧
    ((m.write p).meta.magic = m.magic ∧
     (m.write p).meta.version = m.version ∧
     (m.write p).meta.pageSize = m.pageSize ∧
     (m.write p).meta.pgid = m.pgid ∧
     (m.write p).meta.free = m.free ∧
     (m.write p).meta.sys = m.sys ∧
     (m.write p).meta.txnid = m.txnid) := by
  refine ⟨rfl, ?_, rfl, rfl, rfl, rfl, rfl, rfl, rfl⟩
  have h : (m.write p).flags = p.flags ||| p_meta := rfl
  have h4 : Nat.testBit p_meta 2 = true := rfl
  rw [h, Nat.testBit_lor, h4, Bool.or_true]

/-- C7: `DB.init` produces exactly the four pages the claim describes: two
validating meta pages at ids 0 and 1 (magic, version 1, the OS page size,
freelist page 2, bucket-catalog page 3, next-unallocated page 4, txnids 0
and 1), an empty freelist page at id 2, and an empty bucket-catalog page at
id 3; the buffer goes to the synchronous metadata descriptor. -/
theorem init_writes_fresh_database (osPageSize : Nat) :
    (DB.init osPageSize).length = 4 ∧
    (((DB.init osPageSize).getD 0 default).id = 0 ∧
     ((DB.init osPageSize).getD 0 default).flags = p_meta ∧
     ((DB.init osPageSize).getD 0 default).meta.validate = .ok () ∧
     ((DB.init osPageSize).getD 0 default).meta.magic = 0xDEADC0DE ∧
     ((DB.init osPageSize).getD 0 default).meta.version = 1 ∧
     ((DB.init osPageSize).getD 0 default).meta.pageSize = osPageSize ∧
     ((DB.init osPageSize).getD 0 default).meta.free = 2 ∧
     ((DB.init osPageSize).getD 0 default).meta.sys = 3 ∧
     ((DB.init osPageSize).getD 0 default).meta.pgid = 4 ∧
     ((DB.init osPageSize).getD 0 default).meta.txnid = 0) ∧
    (((DB.init osPageSize).getD 1 default).id = 1 ∧
     ((DB.init osPageSize).getD 1 default).flags = p_meta ∧
     ((DB.init osPageSize).getD 1 default).meta.validate = .ok () ∧
     ((DB.init osPageSize).getD 1 default).meta.magic = 0xDEADC0DE ∧
     ((DB.init osPageSize).getD 1 default).meta.version = 1 ∧
     ((DB.init osPageSize).getD 1 default).meta.pageSize = osPageSize ∧
     ((DB.init osPageSize).getD 1 default).meta.free = 2 ∧
     ((DB.init osPageSize).getD 1 default).meta.sys = 3 ∧
     ((DB.init osPageSize).getD 1 default).meta.pgid = 4 ∧
     ((DB.init osPageSize).getD 1 default).meta.txnid = 1) ∧
    (((DB.init osPageSize).getD 2 default).id = 2 ∧
     ((DB.init osPageSize).getD 2 default).flags = p_freelist ∧
     ((DB.init osPageSize).getD 2 default).count = 0 ∧
     ((DB.init osPageSize).getD 2 default).body = .freelistBody []) ∧
    (((DB.init osPageSize).getD 3 default).id = 3 ∧
     ((DB.init osPageSize).getD 3 default).flags = p_sys ∧
     ((DB.init osPageSize).getD 3 default).count = 0 ∧
     ((DB.init osPageSize).getD 3 default).body = .bucketsBody []) := by
  refine ⟨rfl, ⟨rfl, rfl, ?_, rfl, rfl, rfl, rfl, rfl, rfl, rfl⟩,
    ⟨rfl, rfl, ?_, rfl, rfl, rfl, rfl, rfl, rfl, rfl⟩,
    ⟨rfl, rfl, rfl, rfl⟩, ⟨rfl, rfl, rfl, rfl⟩⟩ <;>
    simp [DB.init, Page.meta, Meta.validate, List.getD,
      BlockchainDb.magic, BlockchainDb.version]

/-- Characterization of `DB.mmapFile`: it succeeds exactly when the file
holds at least two pages and both meta pages validate. -/
theorem mmapFile_ok_iff (f : DataFile) (ps : Nat) :
    succeeds (DB.mmapFile f ps) = true ↔
      (ps * 2 ≤ f.size ∧ (f.pageAt 0).meta.validate = .ok () ∧
       (f.pageAt 1).meta.validate = .ok ()) := by
  unfold DB.mmapFile
  by_cases hs : f.size < ps * 2
  · have hs' := not_le.mpr hs
    simp [succeeds, hs, hs']
  · rcases h0 : (f.pageAt 0).meta.validate with e | u
    · simp [succeeds, hs, h0]
    · cases u
      rcases h1 : (f.pageAt 1).meta.validate with e | u
      · simp [succeeds, hs, h0, h1]
      · cases u
        have hs' := Nat.not_lt.mp hs
        simp [succeeds, hs, h0, h1, hs']

/-- Characterization of the existing-file open: with the database not yet
open it succeeds exactly when the first meta page validates and `mmap`
succeeds with the discovered page size. -/
theorem openExisting_ok_iff (db : DB) (f : DataFile)
    (hopen : db.opened = false) :
    succeeds (DB.openExisting db f) = true ↔
      ((f.pageAt 0).meta.validate = .ok () ∧
       succeeds (DB.mmapFile f (f.pageAt 0).meta.pageSize) = true) := by
  unfold DB.openExisting
  rw [hopen]
  simp only [Bool.false_eq_true, if_false]
  rcases h0 : (f.pageAt 0).meta.validate with e | u
  · simp [succeeds, h0]
  · cases u
    rcases hm : DB.mmapFile f (f.pageAt 0).meta.pageSize with e | mm
    · simp [succeeds, h0, hm]
    · rcases mm with ⟨m0, m1⟩
      simp [succeeds, h0, hm]

/-- Counterexample to C2 as stated: on a file whose meta page 1 validates
while meta page 0 is corrupt, at least one meta page validates and yet
`Open` fails (the claim says it would succeed). -/
theorem open_fails_though_meta1_validates :
    (exFileBad0.pageAt 1).meta.validate = .ok () ∧
    succeeds (DB.openExisting exClosedDb exFileBad0) = false := by
  constructor
  · simp [exFileBad0, exPageMetaG1, Page.meta, Meta.validate,
      BlockchainDb.magic, BlockchainDb.version]
  · simp [DB.openExisting, succeeds, exClosedDb, exFileBad0, exPageMetaBad,
      Page.meta, Meta.validate, BlockchainDb.magic, BlockchainDb.version]

/-- C2 amended: opening an existing non-empty database file validates the
first meta page (to discover the page size) and then both meta pages after
mmap; it fails if either meta page fails validation (or the file is
shorter than two pages), succeeding exactly when both meta pages
validate. -/
theorem open_existing_validates_both (db : DB) (f : DataFile)
    (hopen : db.opened = false) :
    succeeds (DB.openExisting db f) = true ↔
      ((f.pageAt 0).meta.validate = .ok () ∧
       (f.pageAt 1).meta.validate = .ok () ∧
       (f.pageAt 0).meta.pageSize * 2 ≤ f.size) := by
  rw [openExisting_ok_iff db f hopen, mmapFile_ok_iff]
  tauto

/-- Witness for the amended C2: on a file whose two meta pages both
validate, open succeeds. -/
theorem open_existing_validates_both_witness :
    succeeds (DB.openExisting exClosedDb exFileGood) = true := by
  refine (open_existing_validates_both exClosedDb exFileGood rfl).mpr
    ⟨?_, ?_, ?_⟩
  · simp [exFileGood, exPageMetaG0, Page.meta, Meta.validate,
      BlockchainDb.magic, BlockchainDb.version]
  · simp [exFileGood, exPageMetaG1, Page.meta, Meta.validate,
      BlockchainDb.magic, BlockchainDb.version]
  · simp [exFileGood, exPageMetaG0, Page.meta]

/-- C3 (code bug): on an open database `sync` returns
`DatabaseAlreadyOpenedError` without ever reaching the fsync system call —
whatever that call would have returned — while the fsync path is only
reachable when the database is not open, where `sync` just propagates the
fsync outcome. -/
theorem sync_open_db_code_bug :
    (∀ r : Except DbError Unit,
      DB.sync exDb true r = .error .databaseAlreadyOpenedErr) ∧
    (∀ r : Except DbError Unit, DB.sync exClosedDb true r = r) := by
  constructor
  · intro r; rfl
  · intro r
    cases r with
    | error e => rfl
    | ok u => cases u; rfl

/-- C4: at writer begin, the computed `minid` is the minimum id among the
open readers (all reader ids fit in a uint64 below the sentinel), and when
it is positive the engine calls `freelist.release(minid - 1)`, after which
every page pending under a txnid no open reader can still see (txnid ≤
minid - 1) is in the reusable free set and no such pending entry remains;
when the minimum is 0 no release call is made. -/
theorem rwbegin_releases_below_min_reader (readers : List Nat) (fl : Freelist)
    (hne : readers ≠ []) (hub : ∀ t ∈ readers, t < sentinelTxnid) :
    (rwMinReaderTxnid readers ∈ readers ∧
      ∀ t ∈ readers, rwMinReaderTxnid readers ≤ t) ∧
    (0 < rwMinReaderTxnid readers →
      rwBeginRelease readers fl =
        some (fl.release (rwMinReaderTxnid readers - 1)) ∧
      (∀ txid ps, (txid, ps) ∈ fl.pending →
        txid ≤ rwMinReaderTxnid readers - 1 →
        ∀ p ∈ ps, p ∈ (fl.release (rwMinReaderTxnid readers - 1)).ids) ∧
      (∀ e ∈ (fl.release (rwMinReaderTxnid readers - 1)).pending,
        rwMinReaderTxnid readers - 1 < e.1)) ∧
    (rwMinReaderTxnid readers = 0 → rwBeginRelease readers fl = none) := by
  have hmem : rwMinReaderTxnid readers ∈ readers := by
    rcases foldlMin_mem_or_init readers sentinelTxnid with h | h
    · rcases List.exists_mem_of_ne_nil readers hne with ⟨t, ht⟩
      have h1 : rwMinReaderTxnid readers ≤ t := foldlMin_le_mem readers _ t ht
      have h2 : t < sentinelTxnid := hub t ht
      have h3 : rwMinReaderTxnid readers = sentinelTxnid := h
      rw [h3] at h1
      exact absurd (Nat.lt_of_le_of_lt h1 h2) (Nat.lt_irrefl _)
    · exact h
  refine ⟨⟨hmem, fun t ht => foldlMin_le_mem readers _ t ht⟩,
    fun hpos => ⟨?_, fun txid ps hp hle p hpp => ?_, fun e he => ?_⟩,
    fun hzero => ?_⟩
  · simp [rwBeginRelease, hpos]
  · unfold Freelist.release
    simp only [List.mem_append]
    right
    exact mem_foldr_append _ (txid, ps)
      (List.mem_filter.mpr ⟨hp, by simpa using hle⟩) p hpp
  · have := List.of_mem_filter he
    simpa using this
  · simp [rwBeginRelease, hzero]

/-- Example freelist with two pending entries, one old enough to release. -/
def exFl : Freelist := { ids := [], pending := [(2, [9, 10]), (7, [11])] }

/-- Witness for C4: with open readers 3 and 5 the minimum is a member of
the reader list, and page 9 — pending under txnid 2 ≤ min−1 — lands in the
free set of `release(min − 1)`. -/
theorem rwbegin_releases_below_min_reader_witness :
    rwMinReaderTxnid [3, 5] ∈ [3, 5] ∧
    9 ∈ (Freelist.release exFl (rwMinReaderTxnid [3, 5] - 1)).ids := by
  have h := rwbegin_releases_below_min_reader [3, 5] exFl (by decide) (by decide)
  exact ⟨h.1.1, (h.2.1 (by decide)).2.1 2 [9, 10] (by decide) (by decide)
    9 (by decide)⟩

/-- C5: for `count ≥ 1`, `DB.allocate(count)` yields a buffer of
`count*pageSize` bytes with `overflow = count − 1`; its page id is the
freelist id when `freelist.allocate(count)` returns a nonzero id — in which
case the id starts a run of `count` ids that were all in the free set and
the writer meta's next-unallocated pgid is unchanged — and otherwise the
writer meta's next-unallocated pgid, which is then advanced by `count`. -/
theorem allocate_buffer_and_id (pageSize : Nat) (fl : Freelist)
    (metaPgid : Nat) (count : Nat) (_hc : 1 ≤ count) :
    (DB.allocate pageSize fl metaPgid count).bufLen = count * pageSize ∧
    (DB.allocate pageSize fl metaPgid count).p.overflow = count - 1 ∧
    ((fl.allocate count).1 ≠ 0 →
      (DB.allocate pageSize fl metaPgid count).p.id = (fl.allocate count).1 ∧
      (DB.allocate pageSize fl metaPgid count).metaPgid = metaPgid ∧
      (DB.allocate pageSize fl metaPgid count).fl = (fl.allocate count).2 ∧
      (∀ j < count, (fl.allocate count).1 + j ∈ fl.ids)) ∧
    ((fl.allocate count).1 = 0 →
      (DB.allocate pageSize fl metaPgid count).p.id = metaPgid ∧
      (DB.allocate pageSize fl metaPgid count).metaPgid = metaPgid + count) := by
  by_cases h : (fl.allocate count).1 ≠ 0
  · refine ⟨by simp [DB.allocate, h], by simp [DB.allocate, h],
      fun _ => ⟨by simp [DB.allocate, h], by simp [DB.allocate, h],
        by simp [DB.allocate, h], ?_⟩,
      fun hz => absurd hz h⟩
    intro j hj
    rcases hfr : findRun count fl.ids with _ | s
    · exfalso; apply h; simp [Freelist.allocate, hfr]
    · have hs : (fl.allocate count).1 = s := by simp [Freelist.allocate, hfr]
      rw [hs]
      exact findRun_mem count fl.ids s hfr j hj
  · push_neg at h
    refine ⟨by simp [DB.allocate, h], by simp [DB.allocate, h],
      fun hnz => absurd h hnz,
      fun _ => ⟨by simp [DB.allocate, h], by simp [DB.allocate, h]⟩⟩

/-- Example freelist whose free set holds the contiguous run 5,6 and the
isolated id 9. -/
def exFl2 : Freelist := { ids := [5, 6, 9], pending := [] }

/-- Witness for C5: allocating 2 pages with page size 4096 takes the run
starting at 5 from the freelist and leaves the writer meta pgid alone. -/
theorem allocate_buffer_and_id_witness :
    (DB.allocate 4096 exFl2 12 2).bufLen = 2 * 4096 ∧
    (DB.allocate 4096 exFl2 12 2).p.overflow = 1 ∧
    (DB.allocate 4096 exFl2 12 2).p.id = 5 ∧
    (DB.allocate 4096 exFl2 12 2).metaPgid = 12 := by
  have h := allocate_buffer_and_id 4096 exFl2 12 2 (by decide)
  have hnz := h.2.2.1 (by decide)
  refine ⟨h.1, h.2.1, ?_, hnz.2.1⟩
  have h5 : (exFl2.allocate 2).1 = 5 := by decide
  rw [hnz.1, h5]

/-- The example database with one open reader of id 8 (the txnid of its
current meta), as `DB.Transaction()` leaves it. -/
def exDbWithReader : DB := { exDb with transactions := [8] }

/-- C8 (code bug): `Transaction.Close()` is an empty TODO body, so after
closing the reader the open-reader set still contains it, while
`removeTransaction` — which nothing calls on close — would have removed
it. -/
theorem close_leaves_reader_registered :
    (Transaction.close (Transaction.init exDbWithReader)
      exDbWithReader).transactions = [8] ∧
    (DB.removeTransaction exDbWithReader 8).transactions = [] := by
  constructor
  · rfl
  · simp [DB.removeTransaction, exDbWithReader, exDb]

/-- C9: `t.page(id)` returns the buffered dirty page whenever the dirty-page
map is non-nil and holds the id, and otherwise — the id missing from the
map, or the map nil as in every read-only transaction produced by
`Transaction.init` — the page resolved from the database mmap. -/
theorem transaction_page_prefers_dirty (t : Transaction) (id : Nat) :
    (∀ m p, t.pages = some m → m.lookup id = some p → t.page id = p) ∧
    (∀ m, t.pages = some m → m.lookup id = none →
      t.page id = t.db.page id) ∧
    (t.pages = none → t.page id = t.db.page id) ∧
    (∀ db, (Transaction.init db).page id = db.page id) := by
  refine ⟨fun m p hm hl => ?_, fun m hm hl => ?_, fun hm => ?_, fun db => rfl⟩
  · simp [Transaction.page, hm, hl]
  · simp [Transaction.page, hm, hl]
  · simp [Transaction.page, hm]

/-- A dirty page buffered under id 5 by the example writer. -/
def exDirtyPage : Page :=
  { id := 5, flags := p_leaf, count := 0, overflow := 0, body := .empty }

/-- A writer-like transaction over the example database whose dirty-page
map holds page 5. -/
def exWriterTx : Transaction :=
  { id := 1, db := exDb, meta := exMeta0, sys := []
    pages := some [(5, exDirtyPage)] }

/-- Witness for C9: the example writer sees its buffered page 5 and falls
through to the mmap for page 6. -/
theorem transaction_page_prefers_dirty_witness :
    exWriterTx.page 5 = exDirtyPage ∧ exWriterTx.page 6 = exDb.page 6 := by
  have h5 := transaction_page_prefers_dirty exWriterTx 5
  have h6 := transaction_page_prefers_dirty exWriterTx 6
  exact ⟨h5.1 [(5, exDirtyPage)] exDirtyPage rfl rfl,
    h6.2.1 [(5, exDirtyPage)] rfl rfl⟩

/-- C10: when the catalog of the transaction has no bucket of the given
name, `Transaction.Bucket` returns nil, `Transaction.Get` returns nil, and
`DB.Get` on an open database returns a nil value with a nil error. -/
theorem missing_bucket_yields_nil (db : DB) (name : String) (key : List Nat)
    (hopen : db.opened = true)
    (habsent : sysGet (Transaction.init db).sys name = none) :
    (Transaction.init db).bucketByName name = none ∧
    (Transaction.init db).get name key = none ∧
    db.get name key = .ok none := by
  have hb : (Transaction.init db).bucketByName name = none := by
    simp [Transaction.bucketByName, habsent]
  have hg : (Transaction.init db).get name key = none := by
    simp [Transaction.get, Transaction.cursor, hb]
  refine ⟨hb, hg, ?_⟩
  simp [DB.get, DB.beginTx, hopen, hg]

/-- Witness for C10: looking up the absent bucket `nope` on the example
database (whose catalog holds only `widgets`) yields nil without error. -/
theorem missing_bucket_yields_nil_witness :
    (Transaction.init exDb).get "nope" [1] = none ∧
    exDb.get "nope" [1] = .ok none := by
  have h := missing_bucket_yields_nil exDb "nope" [1] rfl rfl
  exact ⟨h.2.1, h.2.2⟩

end BlockchainDb
